import Mathlib

/-!
Shallow embedding of `timelapse.py` (class `TimeLapse`): the series loader,
the OCR temperature extractor (Phase A parallel map, Phase B sequential
aggregation), the graph geometry, the output-frame naming, and the video
encoder invocation.  Machine arithmetic: Python ints are unbounded, so they
are modelled by `Int`/`Nat`; float formulas are modelled over `ℚ` (the
concrete values in the spec are exact).  Fallible Python code is modelled
with `Except` over an explicit exception type.
-/

namespace Timelapse

/-- The Python exception classes that the code in `timelapse.py` can raise or
catch (`except (IndexError, ValueError)` in `process_image`; `os.listdir` can
raise an `OSError`; `int(<function>)` raises a `TypeError`). -/
inductive PyExc where
  | typeError
  | valueError
  | indexError
  | osError
deriving DecidableEq, Repr

/-- The Python values that can end up in the `TimeLapse` attribute holding
the pluggable temperature text parse function (written
`temperature_text_parseFn` throughout this file): the default is the
function `parse_temperature_text` (a function object); via
`self.__dict__.update(kwargs)` a caller can instead install any value,
e.g. a string or an int. -/
inductive PyVal where
  | func
  | str (s : String)
  | int (n : Int)
deriving DecidableEq, Repr

/-- Whitespace stripped by Python `int(str)`. -/
def isPySpace (c : Char) : Bool :=
  c = ' ' || c = '\t' || c = '\n' || c = '\r'

/-- Strip leading and trailing whitespace from a character list. -/
def trimChars (l : List Char) : List Char :=
  ((l.dropWhile isPySpace).reverse.dropWhile isPySpace).reverse

/-- ASCII decimal digit test. -/
def isDigitChar (c : Char) : Bool := 48 ≤ c.toNat && c.toNat ≤ 57

/-- Read a nonempty all-digit character list as a decimal number. -/
def digitsToNat : List Char → Option Nat
  | [] => none
  | l =>
    if l.all isDigitChar then
      some (l.foldl (fun acc c => acc * 10 + (c.toNat - 48)) 0)
    else none

/-- Python `int(s)` on a string: strip surrounding whitespace, optional sign,
then decimal digits; anything else raises `ValueError`. -/
def pyStrToInt (s : String) : Option Int :=
  match trimChars s.data with
  | '-' :: rest => (digitsToNat rest).map (fun n => -(n : Int))
  | '+' :: rest => (digitsToNat rest).map (fun n => (n : Int))
  | l => (digitsToNat l).map (fun n => (n : Int))

/-- Python `int(v)` on an arbitrary value: an int passes through, a string is
parsed (`ValueError` on failure), and a function object raises `TypeError`. -/
def pyIntOf : PyVal → Except PyExc Int
  | .func => .error .typeError
  | .int n => .ok n
  | .str s =>
    match pyStrToInt s with
    | some n => .ok n
    | none => .error .valueError

/-- The configuration fields of `TimeLapse.__init__` that the embedded
functions read (defaults exactly as in the source). -/
structure Config where
  images_per_second : Int := 15
  framerate : Int := 25
  temperature_text_parseFn : PyVal := .func
  graph_height : Int := 650
  graph_width : Int := 4086
  padding : Int := 60
  graph_height_margin : Int := 75
  graph_width_margin : Int := 190
  valid_file_extensions : List String := [".png", ".jpg", ".jpeg"]
deriving DecidableEq, Repr

/-- A `TimeLapse()` instance with every default. -/
def defaultConfig : Config := {}

/-- One entry of `self.image_series` right after `load_images`: the dict
`{file_name, order, index}` (ordering mode `ORDER_NAME`: the order key is the
filename itself). -/
structure FileMeta where
  file_name : String
  order : String
  index : Nat
deriving DecidableEq, Repr

instance : Inhabited FileMeta := ⟨⟨"", "", 0⟩⟩

/-- Lower-case an ASCII letter, as `str.lower` does on filenames. -/
def pyCharLower (c : Char) : Char :=
  if 65 ≤ c.toNat && c.toNat ≤ 90 then Char.ofNat (c.toNat + 32) else c

/-- Does `s` end with `suffix`? -/
def strEndsWith (s suffix : String) : Bool :=
  s.data.reverse.take suffix.data.length == suffix.data.reverse

/-- The extension filter of `load_images`:
`filename.lower().endswith(tuple(self.valid_file_extensions))`. -/
def fileMatches (cfg : Config) (filename : String) : Bool :=
  cfg.valid_file_extensions.any (fun ext =>
    strEndsWith (String.mk (filename.data.map pyCharLower)) ext)

/-- `TimeLapse.load_images` with the default `ORDER_NAME` ordering.  The
directory listing is an input: `os.listdir` either raises (`.error`) or
returns the list of names.  Matching names are collected, sorted by the
order key (the filename), and indexed starting at 1.  There is no
empty-result check: an empty match list just yields an empty series. -/
def load_images (cfg : Config) (listing : Except PyExc (List String)) :
    Except PyExc (List FileMeta) :=
  match listing with
  | .error e => .error e
  | .ok files =>
    let matched := files.filter (fun f => fileMatches cfg f)
    let sortedFiles := matched.insertionSort (fun a b => a ≤ b)
    .ok (sortedFiles.enum.map (fun p => ⟨p.2, p.2, p.1 + 1⟩))

/-- Python `str.split(sep)` for a one-character separator: split at every
occurrence, keeping empty pieces. -/
def splitChar (sep : Char) : List Char → List (List Char)
  | [] => [[]]
  | c :: cs =>
    match splitChar sep cs with
    | [] => [[c]]
    | r :: rs => if c = sep then [] :: r :: rs else (c :: r) :: rs

/-- The default parser `parse_temperature_text`:
`input_text.split('°')[1].split(' ')[1]`, raising `IndexError` when either
subscript is out of range (Python `str.split(sep)` keeps empty pieces). -/
def parse_temperature_text (input_text : String) : Except PyExc String :=
  let degrees := splitChar '°' input_text.data
  match degrees.get? 1 with
  | none => .error .indexError
  | some second =>
    match (splitChar ' ' second).get? 1 with
    | none => .error .indexError
    | some piece => .ok (String.mk piece)

/-- The extraction contract as the spec words it: apply the pluggable parser
to the raw OCR text, then convert the parser's result to an integer.  (The
source instead computes `int(self.temperature_text_parseFn)`, converting the
function object itself; see `process_image`.) -/
def intendedTemp (ocr_text : String) : Except PyExc Int :=
  match parse_temperature_text ocr_text with
  | .error e => .error e
  | .ok s => pyIntOf (.str s)

/-- The per-image external inputs of `process_image`: what the OCR engine
returns for the cropped region, and what the user would type if the
interactive fallback prompts. -/
structure ImageEnv where
  ocr_text : String
  user_input : String
deriving DecidableEq, Repr

instance : Inhabited ImageEnv := ⟨⟨"", ""⟩⟩

/-- One entry of `self.image_series` after Phase A: the dict
`{image, file_name, temp, order, index}` (the PIL image is modelled by the
name of the file it was opened from). -/
structure ImageRec where
  image : String
  file_name : String
  temp : Int
  order : String
  index : Nat
deriving DecidableEq, Repr

instance : Inhabited ImageRec := ⟨⟨"", "", 0, "", 0⟩⟩

/-- Observable side effects of `process_image`. -/
inductive Effect where
  | printLine (s : String)
  | showImage (file : String)
  | promptInput
deriving DecidableEq, Repr

/-- `TimeLapse.process_image`.  The image is opened and cropped and the crop
is OCRed (producing `env.ocr_text`), then the `try` block evaluates
`int(self.temperature_text_parseFn)` — note: the parser is never applied to
the OCR text.  `except (IndexError, ValueError)` triggers the interactive
fallback (print, `im.show()`, `int(input(...))`); any other exception (in
particular the `TypeError` from `int` of a function object) propagates.  A
`ValueError` from the fallback's own `int(input(...))` also propagates. -/
def process_image (cfg : Config) (env : ImageEnv) (meta : FileMeta) :
    List Effect × Except PyExc ImageRec :=
  let im := meta.file_name
  match pyIntOf cfg.temperature_text_parseFn with
  | .ok temp =>
    ([], .ok ⟨im, meta.file_name, temp, meta.order, meta.index⟩)
  | .error e =>
    if e = .indexError ∨ e = .valueError then
      let effects := [Effect.printLine "!! Failed to extract temperature.",
                      Effect.showImage im, Effect.promptInput]
      match pyIntOf (.str env.user_input) with
      | .ok temp =>
        (effects, .ok ⟨im, meta.file_name, temp, meta.order, meta.index⟩)
      | .error e2 => (effects, .error e2)
    else
      ([], .error e)

/-- `max_digits` in `render_images` (and recomputed in `render_video`):
`len(str(n))`. -/
def max_digits (n : Nat) : Nat := (toString n).length

/-- Python `format(i, '0' + str(width))`: zero-pad `i` on the left to
`width` characters (no truncation when the number is already wider). -/
def pyFormatZeroPad (i : Nat) (width : Nat) : String :=
  let s := toString i
  if width ≤ s.length then s
  else String.mk (List.replicate (width - s.length) '0') ++ s

/-- The output frame filename built in `render_images`:
`'TIMELAPSE' + format(index, '0'+str(max_digits)) + '.JPG'` where
`max_digits = len(str(len(self.image_series)))`. -/
def render_filename (index : Nat) (total_frames : Nat) : String :=
  "TIMELAPSE" ++ pyFormatZeroPad index (max_digits total_frames) ++ ".JPG"

/-- What a call to `TimeLapse.render_video` does: the shell command handed to
`os.system`, how often the encoder is invoked, the encoder's exit status,
what is printed, and which exception (if any) reaches the caller. -/
structure VideoCall where
  command : String
  encoder_invocations : Nat
  exit_status : Int
  prints : List String
  raised : Option PyExc
deriving DecidableEq, Repr

/-- `TimeLapse.render_video`: builds the ffmpeg command string, runs it once
through `os.system` (whose return value — the encoder's exit status — is
discarded), and prints before and after.  No exception is ever raised and the
exit status is never inspected. -/
def render_video (cfg : Config) (series_len : Nat)
    (save_directory save_as : String) (encoder_exit : Int) : VideoCall :=
  { command := "cd " ++ save_directory ++ " && ffmpeg -f image2 -framerate "
      ++ toString cfg.framerate ++ " -pattern_type sequence -start_number 1 -r "
      ++ toString cfg.images_per_second ++ " -i TIMELAPSE%0"
      ++ toString (max_digits series_len) ++ "d.JPG " ++ save_as
    encoder_invocations := 1
    exit_status := encoder_exit
    prints := ["Calling ffmpeg...", "Done."]
    raised := none }

/-- `TimeLapse.compute_pixels_per_temp`:
`(graph_height - padding*2) / (deg_max - deg_min)` in float arithmetic,
modelled over `ℚ`. -/
def compute_pixels_per_temp (cfg : Config) (deg_max deg_min : Int) : ℚ :=
  let temp_range : ℚ := (deg_max : ℚ) - (deg_min : ℚ)
  let y_axis_height : ℚ := ((cfg.graph_height - cfg.padding * 2 : Int) : ℚ)
  y_axis_height / temp_range

/-- `TimeLapse.get_temp_y_point`:
`graph_height_margin + graph_height - padding - (temp - deg_min) * pixels_per_degree`. -/
def get_temp_y_point (cfg : Config) (deg_min : Int) (pixels_per_degree : ℚ)
    (temp : Int) : ℚ :=
  (cfg.graph_height_margin : ℚ) + (cfg.graph_height : ℚ) - (cfg.padding : ℚ)
    - ((temp : ℚ) - (deg_min : ℚ)) * pixels_per_degree

/-- `TimeLapse.get_x_point` for a zero-based `index`: the frame spacing
divides by `len(self.image_series) - 1`, the length of the whole series. -/
def get_x_point (cfg : Config) (series_len : Nat) (index : Nat) : ℚ :=
  let x_axis_length : Int := cfg.graph_width - cfg.padding * 2
  let pixels_per_frame : ℚ := (x_axis_length : ℚ) / (((series_len : Int) - 1 : Int) : ℚ)
  (cfg.graph_width_margin : ℚ) + (cfg.padding : ℚ) + pixels_per_frame * (index : ℚ)

/-- The x-position formula exactly as the spec states it:
`width_margin + padding + i * (graph_width - 2*padding) / (N - 1)`. -/
def specXPoint (width_margin padding graph_width : Int) (N i : Nat) : ℚ :=
  (width_margin : ℚ) + (padding : ℚ)
    + (i : ℚ) * ((graph_width : ℚ) - 2 * (padding : ℚ)) / ((N : ℚ) - 1)

/-- The vertical scale formula exactly as the spec states it:
`(graph_height - 2*padding) / (deg_max - deg_min)`. -/
def specPixelsPerDegree (graph_height padding deg_max deg_min : Int) : ℚ :=
  ((graph_height : ℚ) - 2 * (padding : ℚ)) / ((deg_max : ℚ) - (deg_min : ℚ))

/-! ## Phase A: the worker pool

`process_images` runs `self.image_series = p.map(self.process_image, ...)`.
`multiprocessing.Pool.map` hands task `i` (with input `series[i]`) to some
worker; workers finish in an arbitrary order, and the pool reassembles the
results by task index, so `p.map` returns results in input order regardless
of completion order.  The completion order is modelled by a `schedule`: a
permutation of the task indices `0..n-1` in the order the tasks finished. -/

/-- The pool's result buffer: the (task index, result) pairs in the order the
workers completed them. -/
def poolCompletions (f : Nat → α) (schedule : List Nat) : List (Nat × α) :=
  schedule.map (fun i => (i, f i))

/-- Reassembly by task index: slot `i` of the returned list takes the result
whose task index is `i`. -/
def poolCollect (pairs : List (Nat × α)) (n : Nat) : List (Option α) :=
  (List.range n).map (fun i => (pairs.find? (fun p => p.1 == i)).map (fun p => p.2))

/-- `Pool.map f` over `n` tasks under a given completion `schedule`. -/
def poolMap (f : Nat → α) (n : Nat) (schedule : List Nat) : List (Option α) :=
  poolCollect (poolCompletions f schedule) n

/-- One entry of `self.image_series` after Phase B: the Phase A dict plus the
`temps` list (the deep-copied running temperature list). -/
structure HistRec where
  image : String
  file_name : String
  temp : Int
  order : String
  index : Nat
  temps : List Int
deriving DecidableEq, Repr

/-- The `deg_max` update of the Phase B loop:
`if self.deg_max is None or img['temp'] > self.deg_max`. -/
def updMax (dmax : Option Int) (t : Int) : Option Int :=
  match dmax with
  | none => some t
  | some m => if t > m then some t else some m

/-- The `deg_min` update of the Phase B loop:
`if self.deg_min is None or img['temp'] < self.deg_min`. -/
def updMin (dmin : Option Int) (t : Int) : Option Int :=
  match dmin with
  | none => some t
  | some m => if t < m then some t else some m

/-- Phase B of `process_images`: walk the Phase A results in list order,
update `deg_max` then `deg_min`, append the record's temperature to
`current_temps`, and store a snapshot copy as the record's `temps`.
Returns the augmented records together with the final `deg_min`, `deg_max`. -/
def phaseB : List ImageRec → List Int → Option Int → Option Int →
    List HistRec × Option Int × Option Int
  | [], _, dmin, dmax => ([], dmin, dmax)
  | r :: rs, current_temps, dmin, dmax =>
    let snapshot := current_temps ++ [r.temp]
    let rest := phaseB rs snapshot (updMin dmin r.temp) (updMax dmax r.temp)
    (⟨r.image, r.file_name, r.temp, r.order, r.index, snapshot⟩ :: rest.1, rest.2)

/-- Turn the pool's reassembled buffer into the new `self.image_series`:
a missing slot cannot happen for a real pool run (the schedule covers every
task) and is mapped to an `osError`; a task that raised propagates its
exception, as `Pool.map` re-raises it in the parent. -/
def gatherResults : List (Option (Except PyExc ImageRec)) →
    Except PyExc (List ImageRec)
  | [] => .ok []
  | none :: _ => .error .osError
  | some (.error e) :: _ => .error e
  | some (.ok r) :: rest =>
    match gatherResults rest with
    | .error e => .error e
    | .ok rs => .ok (r :: rs)

/-- `TimeLapse.process_images`: Phase A maps `process_image` over the series
through the pool (under an arbitrary completion `schedule`), then Phase B
aggregates sequentially in list order starting from `current_temps = []`,
`deg_min = deg_max = None`. -/
def process_images (cfg : Config) (envs : List ImageEnv)
    (series : List FileMeta) (schedule : List Nat) :
    Except PyExc (List HistRec × Option Int × Option Int) :=
  match gatherResults (poolMap
      (fun i => (process_image cfg (envs.getD i default) (series.getD i default)).2)
      series.length schedule) with
  | .error e => .error e
  | .ok recs => .ok (phaseB recs [] none none)

/-! ## Concrete run data

A three-image series processed with a parser override that makes the `try`
block raise `ValueError` (the parser attribute set to the non-numeric string
`"abc"`), so every image goes through the interactive fallback; the user
answers 3, 7 and 5.  The pool completion schedule `[2, 0, 1]` finishes the
last image first. -/

/-- A `TimeLapse(temperature_text_parseFn="abc")` configuration. -/
def cfgW : Config := { temperature_text_parseFn := PyVal.str "abc" }

/-- Per-image OCR text and fallback answers for the concrete run. -/
def envsW : List ImageEnv := [⟨"", "3"⟩, ⟨"", "7"⟩, ⟨"", "5"⟩]

/-- The series as `load_images` would build it for three matching files. -/
def seriesW : List FileMeta :=
  [⟨"a.jpg", "a.jpg", 1⟩, ⟨"b.jpg", "b.jpg", 2⟩, ⟨"c.jpg", "c.jpg", 3⟩]

/-- The records `process_images` produces for the concrete run. -/
def recsW : List HistRec :=
  [⟨"a.jpg", "a.jpg", 3, "a.jpg", 1, [3]⟩,
   ⟨"b.jpg", "b.jpg", 7, "b.jpg", 2, [3, 7]⟩,
   ⟨"c.jpg", "c.jpg", 5, "c.jpg", 3, [3, 7, 5]⟩]

/-! ## Supporting lemmas -/

/-- Looking up task `i` in a keyed result buffer built from `l` finds the
pair `(i, g i)` as soon as `i` occurs in `l`. -/
lemma find?_keyed {α : Type} (l : List Nat) (g : Nat → α) (i : Nat)
    (hmem : i ∈ l) :
    (l.map (fun j => (j, g j))).find? (fun p => p.1 == i) = some (i, g i) := by
  induction l with
  | nil => cases hmem
  | cons j l ih =>
    by_cases hj : j = i
    · subst hj
      simp [List.find?_cons_of_pos]
    · rw [List.map_cons]
      have hfalse : ((j, g j).1 == i) = false := by simp [hj]
      simp only [List.find?, hfalse]
      rcases List.mem_cons.1 hmem with h | h
      · exact absurd h.symm hj
      · exact ih h

/-- `Pool.map` semantics: under any completion schedule that is a
permutation of the task indices, the reassembled result list is the plain
in-order map — parallel completion order cannot be observed. -/
lemma poolMap_perm {α : Type} (f : Nat → α) (n : Nat) (schedule : List Nat)
    (hperm : List.Perm schedule (List.range n)) :
    poolMap f n schedule = (List.range n).map (fun i => some (f i)) := by
  unfold poolMap poolCollect poolCompletions
  refine List.map_congr_left (fun i hi => ?_)
  have hmem : i ∈ schedule := (hperm.mem_iff).2 hi
  rw [find?_keyed schedule f i hmem]
  rfl

/-- `gatherResults` succeeds on a buffer with no missing slots exactly when
every task returned normally, and then returns the per-task records. -/
lemma gatherResults_ok (es : List (Except PyExc ImageRec)) (rs : List ImageRec)
    (h : gatherResults (es.map some) = .ok rs) : es = rs.map Except.ok := by
  induction es generalizing rs with
  | nil =>
    simp only [List.map_nil, gatherResults] at h
    cases h
    rfl
  | cons e es ih =>
    cases e with
    | error e1 => simp [gatherResults] at h
    | ok r =>
      simp only [List.map_cons, gatherResults] at h
      cases hg : gatherResults (es.map some) with
      | error e2 => rw [hg] at h; cases h
      | ok rs' =>
        rw [hg] at h
        cases h
        rw [List.map_cons]
        rw [ih rs' hg]

/-- `phaseB` keeps one output record per input record. -/
lemma phaseB_length (rs : List ImageRec) (cur : List Int)
    (dmin dmax : Option Int) :
    (phaseB rs cur dmin dmax).1.length = rs.length := by
  induction rs generalizing cur dmin dmax with
  | nil => rfl
  | cons r rs ih => simp [phaseB, ih]

/-- `phaseB` keeps each record's temperature (and every other Phase A field)
and stores as `temps` the accumulator extended by the temperatures of the
records up to and including this one. -/
lemma phaseB_getElem (rs : List ImageRec) (cur : List Int)
    (dmin dmax : Option Int) (k : Nat) (hk : k < rs.length)
    (hk2 : k < (phaseB rs cur dmin dmax).1.length) :
    (phaseB rs cur dmin dmax).1[k] =
      { image := rs[k].image, file_name := rs[k].file_name,
        temp := rs[k].temp, order := rs[k].order, index := rs[k].index,
        temps := cur ++ (rs.take (k + 1)).map (fun r => r.temp) } := by
  induction rs generalizing cur dmin dmax k with
  | nil => simp at hk
  | cons r rs ih =>
    cases k with
    | zero => simp [phaseB]
    | succ k =>
      have hk' : k < rs.length := by simpa using hk
      have hk2' : k < (phaseB rs (cur ++ [r.temp]) (updMin dmin r.temp)
          (updMax dmax r.temp)).1.length := by
        rw [phaseB_length]; exact hk'
      simp only [phaseB, List.getElem_cons_succ]
      rw [ih (cur ++ [r.temp]) (updMin dmin r.temp) (updMax dmax r.temp) k hk' hk2']
      simp

/-- The temperatures of the `phaseB` output records are those of its input. -/
lemma phaseB_map_temp (rs : List ImageRec) (cur : List Int)
    (dmin dmax : Option Int) :
    (phaseB rs cur dmin dmax).1.map (fun h => h.temp)
      = rs.map (fun r => r.temp) := by
  induction rs generalizing cur dmin dmax with
  | nil => rfl
  | cons r rs ih => simp [phaseB, ih]

/-- The running min/max of `phaseB` are left folds of the update steps. -/
lemma phaseB_minmax (rs : List ImageRec) (cur : List Int)
    (dmin dmax : Option Int) :
    (phaseB rs cur dmin dmax).2
      = (rs.foldl (fun a r => updMin a r.temp) dmin,
         rs.foldl (fun a r => updMax a r.temp) dmax) := by
  induction rs generalizing cur dmin dmax with
  | nil => rfl
  | cons r rs ih => simp [phaseB, ih]

/-- Folding `updMax` from a seed yields an element of seed-plus-list that
bounds seed and list from above. -/
lemma foldl_updMax_some (ts : List Int) (m : Int) :
    ∃ M, ts.foldl updMax (some m) = some M ∧ M ∈ m :: ts
      ∧ ∀ t ∈ m :: ts, t ≤ M := by
  induction ts generalizing m with
  | nil => exact ⟨m, rfl, by simp, by simp⟩
  | cons t ts ih =>
    have hstep : updMax (some m) t = some (if t > m then t else m) := by
      simp only [updMax]
      split <;> rfl
    rcases ih (if t > m then t else m) with ⟨M, hfold, hmem, hub⟩
    refine ⟨M, ?_, ?_, ?_⟩
    · rw [List.foldl_cons, hstep, hfold]
    · rcases List.mem_cons.1 hmem with h | h
      · by_cases hc : t > m <;> simp [hc] at h <;> simp [h]
      · simp [h]
    · intro x hx
      rcases List.mem_cons.1 hx with h | h
      · subst h
        have : x ≤ (if t > x then t else x) := by
          by_cases hc : t > x <;> simp [hc]
          omega
        exact le_trans this (hub _ (by simp))
      · rcases List.mem_cons.1 h with h2 | h2
        · subst h2
          have : x ≤ (if x > m then x else m) := by
            by_cases hc : x > m <;> simp [hc]
            omega
          exact le_trans this (hub _ (by simp))
        · exact hub x (by simp [h2])

/-- Folding `updMin` from a seed yields an element of seed-plus-list that
bounds seed and list from below. -/
lemma foldl_updMin_some (ts : List Int) (m : Int) :
    ∃ M, ts.foldl updMin (some m) = some M ∧ M ∈ m :: ts
      ∧ ∀ t ∈ m :: ts, M ≤ t := by
  induction ts generalizing m with
  | nil => exact ⟨m, rfl, by simp, by simp⟩
  | cons t ts ih =>
    have hstep : updMin (some m) t = some (if t < m then t else m) := by
      simp only [updMin]
      split <;> rfl
    rcases ih (if t < m then t else m) with ⟨M, hfold, hmem, hlb⟩
    refine ⟨M, ?_, ?_, ?_⟩
    · rw [List.foldl_cons, hstep, hfold]
    · rcases List.mem_cons.1 hmem with h | h
      · by_cases hc : t < m <;> simp [hc] at h <;> simp [h]
      · simp [h]
    · intro x hx
      rcases List.mem_cons.1 hx with h | h
      · subst h
        have : (if t < x then t else x) ≤ x := by
          by_cases hc : t < x <;> simp [hc]
          omega
        exact le_trans (hlb _ (by simp)) this
      · rcases List.mem_cons.1 h with h2 | h2
        · subst h2
          have : (if x < m then x else m) ≤ x := by
            by_cases hc : x < m <;> simp [hc]
            omega
          exact le_trans (hlb _ (by simp)) this
        · exact hlb x (by simp [h2])

/-- Fields of a record returned by `process_image` are copied from its
input `file_meta` in both the successful-parse and the fallback branch. -/
lemma process_image_fields (cfg : Config) (env : ImageEnv) (meta : FileMeta)
    (r : ImageRec) (h : (process_image cfg env meta).2 = .ok r) :
    r.image = meta.file_name ∧ r.file_name = meta.file_name
      ∧ r.order = meta.order ∧ r.index = meta.index := by
  unfold process_image at h
  cases hp : pyIntOf cfg.temperature_text_parseFn with
  | ok t =>
    rw [hp] at h
    simp only at h
    cases h
    exact ⟨rfl, rfl, rfl, rfl⟩
  | error e =>
    rw [hp] at h
    simp only at h
    by_cases hcls : e = PyExc.indexError ∨ e = PyExc.valueError
    · rw [if_pos hcls] at h
      cases hu : pyIntOf (.str env.user_input) with
      | ok t =>
        rw [hu] at h
        simp only at h
        cases h
        exact ⟨rfl, rfl, rfl, rfl⟩
      | error e2 =>
        rw [hu] at h
        simp only at h
        cases h
    · rw [if_neg hcls] at h
      cases h

/-- A successful `process_images` run decomposes into the in-order Phase A
results followed by the Phase B pass, for any completion schedule. -/
lemma process_images_ok (cfg : Config) (envs : List ImageEnv)
    (series : List FileMeta) (schedule : List Nat)
    (recs : List HistRec) (dmin dmax : Option Int)
    (hperm : List.Perm schedule (List.range series.length))
    (hrun : process_images cfg envs series schedule = .ok (recs, dmin, dmax)) :
    ∃ recs0 : List ImageRec,
      (List.range series.length).map
          (fun i => (process_image cfg (envs.getD i default)
            (series.getD i default)).2)
        = recs0.map Except.ok
      ∧ phaseB recs0 [] none none = (recs, dmin, dmax) := by
  unfold process_images at hrun
  rw [poolMap_perm _ _ _ hperm] at hrun
  have hmm : (List.range series.length).map
      (fun i => some ((process_image cfg (envs.getD i default)
        (series.getD i default)).2))
      = ((List.range series.length).map
          (fun i => (process_image cfg (envs.getD i default)
            (series.getD i default)).2)).map some := by
    rw [List.map_map]
    rfl
  rw [hmm] at hrun
  cases hg : gatherResults (((List.range series.length).map
      (fun i => (process_image cfg (envs.getD i default)
        (series.getD i default)).2)).map some) with
  | error e => rw [hg] at hrun; cases hrun
  | ok recs0 =>
    rw [hg] at hrun
    simp only at hrun
    exact ⟨recs0, gatherResults_ok _ _ hg, Except.ok.inj hrun⟩

/-! ## Claim theorems -/

/-- C2 (code bug): `process_image` is claimed to apply the pluggable parser
to the raw OCR text and convert the result to an integer.  The source
instead evaluates `int(self.temperature_text_parseFn)` — the parser function
object itself — which raises an uncaught `TypeError` on every image under
the default configuration, while the intended contract (parser applied to
the OCR text, then `int`) yields 24 on the OCR text `"-4°C 24°F"`. -/
theorem timelapse_c2_code_evaluation :
    (process_image defaultConfig ⟨"-4°C 24°F", ""⟩ ⟨"img1.jpg", "img1.jpg", 1⟩).2
        = Except.error PyExc.typeError
      ∧ pyIntOf defaultConfig.temperature_text_parseFn
        = Except.error PyExc.typeError
      ∧ intendedTemp "-4°C 24°F" = Except.ok 24 :=
  ⟨rfl, rfl, rfl⟩

/-- C4: when the `try` block of `process_image` fails with one of the two
caught parse-failure exceptions (`IndexError`, `ValueError`), the function
falls back to the synchronous interactive resolution — it prints a notice,
shows the image, and blocks for exactly one manually entered value (no
retry) — and if that fallback input is itself non-numeric, the resulting
`ValueError` propagates to the caller. -/
theorem timelapse_c4_fallback (cfg : Config) (env : ImageEnv) (meta : FileMeta)
    (e : PyExc) (hfail : pyIntOf cfg.temperature_text_parseFn = Except.error e)
    (hcls : e = PyExc.indexError ∨ e = PyExc.valueError) :
    (process_image cfg env meta).1
      = [Effect.printLine "!! Failed to extract temperature.",
         Effect.showImage meta.file_name, Effect.promptInput]
    ∧ (∀ t : Int, pyStrToInt env.user_input = some t →
        (process_image cfg env meta).2
          = Except.ok ⟨meta.file_name, meta.file_name, t, meta.order, meta.index⟩)
    ∧ (pyStrToInt env.user_input = none →
        (process_image cfg env meta).2 = Except.error PyExc.valueError) := by
  unfold process_image
  rw [hfail]
  simp only
  rw [if_pos hcls]
  refine ⟨?_, ?_, ?_⟩
  · cases hu : pyStrToInt env.user_input <;> simp [pyIntOf, hu]
  · intro t hu
    simp [pyIntOf, hu]
  · intro hu
    simp [pyIntOf, hu]

/-- C4 witness: with the parser attribute overridden to the non-numeric
string `"abc"` the `try` block raises `ValueError`, and a non-numeric
fallback answer `"xyz"` makes the whole call fail with `ValueError`. -/
theorem timelapse_c4_fallback_witness :
    (process_image cfgW ⟨"", "xyz"⟩ ⟨"a.jpg", "a.jpg", 1⟩).2
      = Except.error PyExc.valueError :=
  (timelapse_c4_fallback cfgW ⟨"", "xyz"⟩ ⟨"a.jpg", "a.jpg", 1⟩
    PyExc.valueError rfl (Or.inr rfl)).2.2 rfl

/-- C5 counterexample: the claim says loading fails with a "no matching
files" condition on an empty directory (and does not proceed with an empty
series); in the source `load_images` has no such check — on an empty
listing, and on a listing with no allow-listed extension, it succeeds with
an empty series. -/
theorem timelapse_c5_counterexample :
    load_images defaultConfig (Except.ok []) = Except.ok []
      ∧ load_images defaultConfig (Except.ok ["notes.txt"]) = Except.ok []
      ∧ ∀ e : PyExc, load_images defaultConfig (Except.ok []) ≠ Except.error e := by
  refine ⟨rfl, rfl, fun e h => ?_⟩
  cases h

/-- C5 (amended): `load_images` performs no "no matching files" validation:
when the listing contains no entry with an allow-listed extension (in
particular when the directory is empty) it proceeds with an empty series,
and an unreadable directory propagates the underlying `OSError` unchanged
rather than reporting a "no matching files" condition. -/
theorem timelapse_c5_no_validation :
    (∀ (cfg : Config) (e : PyExc),
        load_images cfg (Except.error e) = Except.error e)
    ∧ (∀ (cfg : Config) (files : List String),
        files.filter (fun f => fileMatches cfg f) = [] →
        load_images cfg (Except.ok files) = Except.ok []) := by
  refine ⟨fun cfg e => rfl, fun cfg files hnone => ?_⟩
  simp only [load_images, hnone]
  rfl

/-- C5 witness: a directory containing only `notes.txt` matches nothing and
loading proceeds with the empty series. -/
theorem timelapse_c5_no_validation_witness :
    load_images defaultConfig (Except.ok ["notes.txt"]) = Except.ok [] :=
  timelapse_c5_no_validation.2 defaultConfig ["notes.txt"] rfl

/-- C6: `get_x_point` places history position `i` at
`width_margin + padding + i * (graph_width - 2*padding) / (N - 1)` with `N`
the total series length, so the spacing is the same on every frame; with the
default geometry and `N = 5`, `x(0) = 250` and `x(4) = 4216`. -/
theorem timelapse_c6_x_point :
    (∀ (cfg : Config) (N i : Nat), 2 ≤ N →
        get_x_point cfg N i
          = specXPoint cfg.graph_width_margin cfg.padding cfg.graph_width N i)
    ∧ get_x_point defaultConfig 5 0 = 250
    ∧ get_x_point defaultConfig 5 4 = 4216 := by
  refine ⟨fun cfg N i _ => ?_, by norm_num [get_x_point, defaultConfig], by
    norm_num [get_x_point, defaultConfig]⟩
  unfold get_x_point specXPoint
  push_cast
  ring

/-- C6 witness: the formula holds at the spec's concrete instance `N = 5`,
`i = 4` with the default geometry. -/
theorem timelapse_c6_x_point_witness :
    get_x_point defaultConfig 5 4
      = specXPoint defaultConfig.graph_width_margin defaultConfig.padding
          defaultConfig.graph_width 5 4 :=
  timelapse_c6_x_point.1 defaultConfig 5 4 (by norm_num)

/-- C7: `compute_pixels_per_temp` equals
`(graph_height - 2*padding) / (deg_max - deg_min)` exactly (the caller must
keep `deg_max ≠ deg_min`), and with the defaults and `deg_min = 20`,
`deg_max = 40` it equals 26.5. -/
theorem timelapse_c7_pixels_per_degree :
    (∀ (cfg : Config) (deg_max deg_min : Int), deg_max ≠ deg_min →
        compute_pixels_per_temp cfg deg_max deg_min
          = specPixelsPerDegree cfg.graph_height cfg.padding deg_max deg_min)
    ∧ compute_pixels_per_temp defaultConfig 40 20 = 53 / 2 := by
  refine ⟨fun cfg dmax dmin _ => ?_, by
    norm_num [compute_pixels_per_temp, defaultConfig]⟩
  unfold compute_pixels_per_temp specPixelsPerDegree
  push_cast
  ring

/-- C7 witness: the guard `deg_max ≠ deg_min` is satisfied at the spec's
concrete instance 40/20. -/
theorem timelapse_c7_pixels_per_degree_witness :
    compute_pixels_per_temp defaultConfig 40 20
      = specPixelsPerDegree defaultConfig.graph_height defaultConfig.padding
          40 20 :=
  timelapse_c7_pixels_per_degree.1 defaultConfig 40 20 (by norm_num)

/-- C8: output frames are named `TIMELAPSE` + index zero-padded to the digit
count of the total frame count + `.JPG`: a 125-frame series gives
`TIMELAPSE001.JPG` … `TIMELAPSE125.JPG` (each name 16 characters, the padded
field decoding back to the index), and the digit width is 1, 2, 2, 3, 3, 4
at the boundary counts 9, 10, 99, 100, 999, 1000. -/
theorem timelapse_c8_filenames :
    render_filename 1 125 = "TIMELAPSE001.JPG"
    ∧ render_filename 125 125 = "TIMELAPSE125.JPG"
    ∧ max_digits 9 = 1 ∧ max_digits 10 = 2 ∧ max_digits 99 = 2
    ∧ max_digits 100 = 3 ∧ max_digits 999 = 3 ∧ max_digits 1000 = 4
    ∧ ((List.range 125).all (fun k =>
        (digitsToNat (((render_filename (k + 1) 125).data.drop 9).take 3)
            == some (k + 1))
        && ((render_filename (k + 1) 125).data.length == 16))) = true :=
  ⟨rfl, rfl, rfl, rfl, rfl, rfl, rfl, rfl, rfl⟩

/-- C9 counterexample: the claim says a nonzero encoder exit status is fatal
and surfaced to the caller; in the source `render_video` discards the
`os.system` return value — with exit status 1 nothing is raised and
`"Done."` is printed anyway. -/
theorem timelapse_c9_counterexample :
    (1 : Int) ≠ 0
    ∧ (render_video defaultConfig 125 "save" "timelapse.mp4" 1).raised = none
    ∧ (render_video defaultConfig 125 "save" "timelapse.mp4" 1).prints
        = ["Calling ffmpeg...", "Done."] :=
  ⟨by norm_num, rfl, rfl⟩

/-- C9 (amended): `render_video` ignores the encoder's exit status entirely:
for every exit status it invokes the encoder exactly once (so there is
indeed no retry), raises nothing to the caller, and prints
`"Calling ffmpeg..."` and `"Done."` unconditionally. -/
theorem timelapse_c9_exit_ignored (cfg : Config) (series_len : Nat)
    (save_directory save_as : String) (encoder_exit : Int) :
    (render_video cfg series_len save_directory save_as encoder_exit).raised
        = none
    ∧ (render_video cfg series_len save_directory save_as encoder_exit).prints
        = ["Calling ffmpeg...", "Done."]
    ∧ (render_video cfg series_len save_directory save_as
        encoder_exit).encoder_invocations = 1
    ∧ (render_video cfg series_len save_directory save_as
        encoder_exit).exit_status = encoder_exit :=
  ⟨rfl, rfl, rfl, rfl⟩

/-- C10: whenever `process_image` returns a record — through the
successful-parse branch or the interactive-fallback branch — the record's
`file_name`, `order` and `index` are copied unchanged from the input
`file_meta`; Phase A only adds the `image` and `temp` fields. -/
theorem timelapse_c10_identity (cfg : Config) (env : ImageEnv)
    (meta : FileMeta) (r : ImageRec)
    (h : (process_image cfg env meta).2 = Except.ok r) :
    r.file_name = meta.file_name ∧ r.order = meta.order
      ∧ r.index = meta.index := by
  obtain ⟨_, h2, h3, h4⟩ := process_image_fields cfg env meta r h
  exact ⟨h2, h3, h4⟩

/-- C1: after a full `process_images` run over a series whose records are
indexed 1..N, the record at position i (index i+1 when zero-based position
is i) carries a `temps` list of length exactly its index, equal to the
temperatures of the records up to and including itself in index order —
for every completion order of the parallel Phase A tasks. -/
theorem timelapse_c1_history (cfg : Config) (envs : List ImageEnv)
    (series : List FileMeta) (schedule : List Nat) (recs : List HistRec)
    (dmin dmax : Option Int)
    (hperm : List.Perm schedule (List.range series.length))
    (hidx : ∀ k (hk : k < series.length), series[k].index = k + 1)
    (hrun : process_images cfg envs series schedule
      = Except.ok (recs, dmin, dmax)) :
    recs.length = series.length
    ∧ ∀ k (hk : k < recs.length),
        recs[k].index = k + 1
        ∧ recs[k].temps.length = k + 1
        ∧ recs[k].temps = (recs.take (k + 1)).map (fun r => r.temp) := by
  obtain ⟨recs0, hmap, hphase⟩ :=
    process_images_ok cfg envs series schedule recs dmin dmax hperm hrun
  have hlen0 : recs0.length = series.length := by
    have h := congrArg List.length hmap
    simp only [List.length_map, List.length_range] at h
    exact h.symm
  have hfst : (phaseB recs0 [] none none).1 = recs := by rw [hphase]
  subst hfst
  refine ⟨by rw [phaseB_length, hlen0], ?_⟩
  intro k hk
  have hk0 : k < recs0.length := by
    rw [phaseB_length] at hk
    exact hk
  have hkn : k < series.length := by rw [← hlen0]; exact hk0
  have htask : (process_image cfg (envs.getD k default)
      (series.getD k default)).2 = Except.ok recs0[k] := by
    have h1 := congrArg (fun l => l[k]?) hmap
    simp only [List.getElem?_map, List.getElem?_range hkn,
      List.getElem?_eq_getElem hk0, Option.map_some'] at h1
    exact Option.some.inj h1
  have hgetD : series.getD k default = series[k] := by
    rw [List.getD_eq_getElem?_getD, List.getElem?_eq_getElem hkn]
    rfl
  have hfields := process_image_fields cfg (envs.getD k default)
      (series.getD k default) recs0[k] htask
  have hidxk : recs0[k].index = k + 1 := by
    rw [hfields.2.2.2, hgetD]
    exact hidx k hkn
  rw [phaseB_getElem recs0 [] none none k hk0 hk]
  refine ⟨hidxk, ?_, ?_⟩
  · simp only [List.nil_append, List.length_map, List.length_take]
    omega
  · rw [List.nil_append, List.map_take, List.map_take, phaseB_map_temp]

/-- C1 witness: the concrete three-image run, with the last image finishing
first in the pool, still yields histories `[3]`, `[3,7]`, `[3,7,5]`. -/
theorem timelapse_c1_history_witness :
    recsW.length = seriesW.length
      ∧ recsW[2].temps = (recsW.take 3).map (fun r => r.temp) := by
  have h := timelapse_c1_history cfgW envsW seriesW [2, 0, 1] recsW
    (some 3) (some 7) (by decide) (by decide) rfl
  exact ⟨h.1, (h.2 2 (by decide)).2.2⟩

/-- C3: after Phase B, `deg_max` (`deg_min`) is the true maximum (minimum)
of the series' temperatures — an element of the temperature list bounding
every element — for every completion order of the Phase A tasks. -/
theorem timelapse_c3_minmax (cfg : Config) (envs : List ImageEnv)
    (series : List FileMeta) (schedule : List Nat) (recs : List HistRec)
    (dmin dmax : Option Int)
    (hperm : List.Perm schedule (List.range series.length))
    (hne : series ≠ [])
    (hrun : process_images cfg envs series schedule
      = Except.ok (recs, dmin, dmax)) :
    (∃ M, dmax = some M ∧ M ∈ recs.map (fun r => r.temp)
        ∧ ∀ t ∈ recs.map (fun r => r.temp), t ≤ M)
    ∧ (∃ m, dmin = some m ∧ m ∈ recs.map (fun r => r.temp)
        ∧ ∀ t ∈ recs.map (fun r => r.temp), m ≤ t) := by
  obtain ⟨recs0, hmap, hphase⟩ :=
    process_images_ok cfg envs series schedule recs dmin dmax hperm hrun
  have hlen0 : recs0.length = series.length := by
    have h := congrArg List.length hmap
    simp only [List.length_map, List.length_range] at h
    exact h.symm
  have hfst : (phaseB recs0 [] none none).1 = recs := by rw [hphase]
  have htemps : recs.map (fun r => r.temp) = recs0.map (fun r => r.temp) := by
    rw [← hfst, phaseB_map_temp]
  have hdmin : dmin = recs0.foldl (fun a r => updMin a r.temp) none := by
    have h := congrArg (fun p => p.2.1) hphase
    simp only at h
    rw [phaseB_minmax] at h
    exact h.symm
  have hdmax : dmax = recs0.foldl (fun a r => updMax a r.temp) none := by
    have h := congrArg (fun p => p.2.2) hphase
    simp only at h
    rw [phaseB_minmax] at h
    exact h.symm
  cases hr0 : recs0.map (fun r => r.temp) with
  | nil =>
    exfalso
    have h0 : recs0 = [] := List.map_eq_nil_iff.1 hr0
    rw [h0] at hlen0
    exact hne (List.eq_nil_of_length_eq_zero hlen0.symm)
  | cons t ts =>
    have hfold_max : recs0.foldl (fun a r => updMax a r.temp) none
        = ts.foldl updMax (some t) := by
      rw [← List.foldl_map, hr0]
      rfl
    have hfold_min : recs0.foldl (fun a r => updMin a r.temp) none
        = ts.foldl updMin (some t) := by
      rw [← List.foldl_map, hr0]
      rfl
    obtain ⟨M, hM, hmemM, hubM⟩ := foldl_updMax_some ts t
    obtain ⟨m, hm, hmemm, hlbm⟩ := foldl_updMin_some ts t
    refine ⟨⟨M, ?_, ?_, ?_⟩, ⟨m, ?_, ?_, ?_⟩⟩
    · rw [hdmax, hfold_max, hM]
    · rw [htemps, hr0]; exact hmemM
    · intro x hx
      rw [htemps, hr0] at hx
      exact hubM x hx
    · rw [hdmin, hfold_min, hm]
    · rw [htemps, hr0]; exact hmemm
    · intro x hx
      rw [htemps, hr0] at hx
      exact hlbm x hx

/-- C3 witness: the concrete run (completion order `[2,0,1]`, temperatures
3, 7, 5) ends with `deg_max = 7` and `deg_min = 3`, both members of the
temperature list. -/
theorem timelapse_c3_minmax_witness :
    (7 : Int) ∈ recsW.map (fun r => r.temp)
      ∧ (3 : Int) ∈ recsW.map (fun r => r.temp) := by
  have h := timelapse_c3_minmax cfgW envsW seriesW [2, 0, 1] recsW
    (some 3) (some 7) (by decide) (by decide) rfl
  obtain ⟨⟨M, hM, hmemM, hubM⟩, m, hm, hmemm, hlbm⟩ := h
  have hM7 : M = 7 := (Option.some.inj hM).symm
  have hm3 : m = 3 := (Option.some.inj hm).symm
  rw [hM7] at hmemM
  rw [hm3] at hmemm
  exact ⟨hmemM, hmemm⟩

/-- C10 witness: a successful parse (parser attribute the numeric string
`"25"`) returns a record with the input's `file_name`, `order`, `index`. -/
theorem timelapse_c10_identity_witness :
    (ImageRec.mk "a.jpg" "a.jpg" 25 "a.jpg" 7).file_name = "a.jpg"
      ∧ (ImageRec.mk "a.jpg" "a.jpg" 25 "a.jpg" 7).order = "a.jpg"
      ∧ (ImageRec.mk "a.jpg" "a.jpg" 25 "a.jpg" 7).index = 7 :=
  timelapse_c10_identity { temperature_text_parseFn := PyVal.str "25" }
    ⟨"", ""⟩ ⟨"a.jpg", "a.jpg", 7⟩ ⟨"a.jpg", "a.jpg", 25, "a.jpg", 7⟩ rfl

end Timelapse
